import Mathlib

/-!
Verification of the NPS dashboard metrics module (`utils.py`).

Shallow embedding conventions:
* A pandas `DataFrame` of customer rows is modelled as a `List Record`.
  The six mandatory columns (`validar_dados`) are modelled as record fields;
  a cell that can be `NaN`/`None` in the data is an `Option`.
* Python/NumPy floats are modelled as rationals (`ℚ`); `round(x, n)` and
  `Series.round()` use round-half-to-even, modelled by `roundHalfEven`.
* A pandas `Timestamp` is modelled by its calendar date (`Date`); the code
  only renders and orders dates.
* `df[df[c] == v]` is `List.filter`; pandas' stable multi-column
  lexicographic sort (`np.lexsort`, used by `sort_values` with a list of
  keys) is modelled by `List.insertionSort`, which is stable.
-/

/-- A calendar date: the date part of a pandas `Timestamp` (`formatar_data`
only renders dates, so time of day is irrelevant here). -/
structure Date where
  year : ℕ
  month : ℕ
  day : ℕ
  deriving DecidableEq, Inhabited, Repr

/-- One row of the `vw_nps_dashboard` view (the columns the metrics module
reads).  Optional columns/NaN-able cells are `Option`-valued. -/
structure Record where
  customer_id : ℕ
  customer_name : String
  tipo_cliente : Option String
  qtd_frota : Option ℚ
  nota_media_empresa : Option ℚ
  classificacao_empresa : Option String
  flag_alerta : Option String
  comentarios_consolidados : Option String
  ultima_resposta : Option Date
  deriving DecidableEq, Inhabited, Repr

/-- Round-half-to-even on rationals: the rounding used by Python `round`
and NumPy `Series.round()`. -/
def roundHalfEven (q : ℚ) : ℤ :=
  if q - ⌊q⌋ < 1 / 2 then ⌊q⌋
  else if 1 / 2 < q - ⌊q⌋ then ⌊q⌋ + 1
  else if ⌊q⌋ % 2 = 0 then ⌊q⌋ else ⌊q⌋ + 1

/-- Python `round(x, 1)`. -/
def pyRound1 (q : ℚ) : ℚ := (roundHalfEven (q * 10) : ℚ) / 10

/-- Python `round(x, 2)`. -/
def pyRound2 (q : ℚ) : ℚ := (roundHalfEven (q * 100) : ℚ) / 100

theorem roundHalfEven_eq_floor_or_succ (q : ℚ) :
    roundHalfEven q = ⌊q⌋ ∨ roundHalfEven q = ⌊q⌋ + 1 := by
  unfold roundHalfEven
  split
  · exact Or.inl rfl
  · split
    · exact Or.inr rfl
    · split
      · exact Or.inl rfl
      · exact Or.inr rfl

theorem roundHalfEven_intCast (n : ℤ) : roundHalfEven (n : ℚ) = n := by
  unfold roundHalfEven
  rw [Int.floor_intCast]
  norm_num

theorem roundHalfEven_le (q : ℚ) (n : ℤ) (h : q ≤ n) : roundHalfEven q ≤ n := by
  rcases roundHalfEven_eq_floor_or_succ q with h1 | h1
  · rw [h1]
    exact le_trans (Int.floor_le_floor h) (by simp)
  · rw [h1]
    have hf : ⌊q⌋ ≤ n := le_trans (Int.floor_le_floor h) (by simp)
    rcases lt_or_eq_of_le hf with hlt | heq
    · omega
    · exfalso
      have hq : (n : ℚ) ≤ q := by
        have := Int.floor_le q
        rw [heq] at this
        exact this
      have hqn : q = (n : ℚ) := le_antisymm h hq
      rw [hqn, roundHalfEven_intCast, Int.floor_intCast] at h1
      omega

theorem le_roundHalfEven (q : ℚ) (n : ℤ) (h : (n : ℚ) ≤ q) : n ≤ roundHalfEven q := by
  rcases roundHalfEven_eq_floor_or_succ q with h1 | h1
  · rw [h1]; exact Int.le_floor.mpr h
  · rw [h1]
    have := Int.le_floor.mpr h
    omega

/-- `calcular_nps` (utils.py 16-38): `%Promotor − %Detrator`, rounded to one
decimal; `0.0` on an empty frame. -/
def calcular_nps (df : List Record) : ℚ :=
  if df.isEmpty then 0
  else
    let total : ℚ := df.length
    let promotores : ℚ := (df.filter (fun r => r.classificacao_empresa == some "Promotor")).length
    let detratores : ℚ := (df.filter (fun r => r.classificacao_empresa == some "Detrator")).length
    let pct_promotores := promotores / total * 100
    let pct_detratores := detratores / total * 100
    pyRound1 (pct_promotores - pct_detratores)

/-- `calcular_nps_ponderado` (utils.py 41-67): fleet-weighted mean note over
the rows where both `nota_media_empresa` and `qtd_frota` are non-null. -/
def calcular_nps_ponderado (df : List Record) : ℚ :=
  if df.isEmpty then 0
  else
    let df_clean := df.filter (fun r => r.qtd_frota.isSome && r.nota_media_empresa.isSome)
    if df_clean.isEmpty then 0
    else
      let soma_ponderada := (df_clean.map (fun r => r.nota_media_empresa.getD 0 * r.qtd_frota.getD 0)).sum
      let soma_frota := (df_clean.map (fun r => r.qtd_frota.getD 0)).sum
      if soma_frota = 0 then 0
      else pyRound2 (soma_ponderada / soma_frota)

example : calcular_nps [] = 0 := by with_unfolding_all decide

/-- The five-record fixture of `test_utils.py`. -/
def dfExemplo : List Record :=
  [⟨1, "Empresa A", some "DAF", some 100, some (19/2), some "Promotor", none, none, none⟩,
   ⟨2, "Empresa B", some "DAF", some 50, some (15/2), some "Neutro", none, none, none⟩,
   ⟨3, "Empresa C", some "Multimarcas", some 200, some 5, some "Detrator", none, none, none⟩,
   ⟨4, "Empresa D", some "DAF Montadora", some 150, some 8, some "Neutro", none, none, none⟩,
   ⟨5, "Empresa E", some "DAF", some 75, some 10, some "Promotor", none, none, none⟩]

example : calcular_nps dfExemplo = 20 := by with_unfolding_all decide

set_option maxRecDepth 10000 in
example : calcular_nps_ponderado dfExemplo = 743 / 100 := by with_unfolding_all decide

theorem pyRound1_le (q : ℚ) (n : ℤ) (h : q ≤ n) : pyRound1 q ≤ n := by
  unfold pyRound1
  have h10 : q * 10 ≤ ((10 * n : ℤ) : ℚ) := by push_cast; linarith
  have hr := roundHalfEven_le (q * 10) (10 * n) h10
  rw [div_le_iff₀ (by norm_num)]
  calc (roundHalfEven (q * 10) : ℚ) ≤ ((10 * n : ℤ) : ℚ) := by exact_mod_cast hr
    _ = n * 10 := by push_cast; ring

theorem le_pyRound1 (q : ℚ) (n : ℤ) (h : (n : ℚ) ≤ q) : (n : ℚ) ≤ pyRound1 q := by
  unfold pyRound1
  have h10 : ((10 * n : ℤ) : ℚ) ≤ q * 10 := by push_cast; linarith
  have hr := le_roundHalfEven (q * 10) (10 * n) h10
  rw [le_div_iff₀ (by norm_num)]
  calc (n : ℚ) * 10 = ((10 * n : ℤ) : ℚ) := by push_cast; ring
    _ ≤ (roundHalfEven (q * 10) : ℚ) := by exact_mod_cast hr

/-- `%Promotor` of a frame, over its total length (the spec formula). -/
def pctPromotor (df : List Record) : ℚ :=
  ((df.filter (fun r => r.classificacao_empresa == some "Promotor")).length : ℚ) / df.length * 100

/-- `%Detrator` of a frame, over its total length (the spec formula). -/
def pctDetrator (df : List Record) : ℚ :=
  ((df.filter (fun r => r.classificacao_empresa == some "Detrator")).length : ℚ) / df.length * 100

theorem pct_nonneg (df : List Record) (cl : String) :
    0 ≤ ((df.filter (fun r => r.classificacao_empresa == some cl)).length : ℚ) / df.length * 100 := by
  positivity

theorem pct_le_100 (df : List Record) (cl : String) (hdf : df ≠ []) :
    ((df.filter (fun r => r.classificacao_empresa == some cl)).length : ℚ) / df.length * 100 ≤ 100 := by
  have hlen : 0 < (df.length : ℚ) := by
    have : 0 < df.length := List.length_pos.mpr hdf
    exact_mod_cast this
  have hle : ((df.filter (fun r => r.classificacao_empresa == some cl)).length : ℚ) ≤ (df.length : ℚ) := by
    exact_mod_cast List.length_filter_le _ df
  have : ((df.filter (fun r => r.classificacao_empresa == some cl)).length : ℚ) / df.length ≤ 1 := by
    rw [div_le_one hlen]; exact hle
  linarith

/-- **C1.** `calcular_nps` returns `round(%Promotor − %Detrator, 1)` with the
percentages taken over the whole frame, returns `0.0` on the empty frame
(no division-by-zero error), and always lies in `[-100, 100]`. -/
theorem calcular_nps_correct (df : List Record) :
    calcular_nps df = pyRound1 (pctPromotor df - pctDetrator df)
      ∧ calcular_nps [] = 0
      ∧ -100 ≤ calcular_nps df ∧ calcular_nps df ≤ 100 := by
  have hzero : pyRound1 0 = 0 := by with_unfolding_all decide
  by_cases hdf : df = []
  · subst hdf
    refine ⟨?_, ?_, ?_, ?_⟩ <;>
      simp [calcular_nps, pctPromotor, pctDetrator, hzero]
  · have hne : ¬df.isEmpty := by simpa [List.isEmpty_iff] using hdf
    have hmain : calcular_nps df = pyRound1 (pctPromotor df - pctDetrator df) := by
      simp only [calcular_nps, pctPromotor, pctDetrator, hne, Bool.false_eq_true, if_false]
    refine ⟨hmain, by simp [calcular_nps, hzero], ?_, ?_⟩
    · rw [hmain]
      have h1 := pct_le_100 df "Detrator" hdf
      have h2 := pct_nonneg df "Promotor"
      have : ((-100 : ℤ) : ℚ) ≤ pctPromotor df - pctDetrator df := by
        push_cast
        unfold pctPromotor pctDetrator
        linarith [h1, h2]
      have := le_pyRound1 _ (-100) this
      exact_mod_cast this
    · rw [hmain]
      have h1 := pct_le_100 df "Promotor" hdf
      have h2 := pct_nonneg df "Detrator"
      have hle : pctPromotor df - pctDetrator df ≤ ((100 : ℤ) : ℚ) := by
        push_cast
        unfold pctPromotor pctDetrator
        linarith [h1, h2]
      have := pyRound1_le _ 100 hle
      exact_mod_cast this

/-- The rows kept by `df.dropna(subset=[qtd_frota, nota_media_empresa])`
in `calcular_nps_ponderado`: both fields non-null. -/
def df_clean (df : List Record) : List Record :=
  df.filter (fun r => r.qtd_frota.isSome && r.nota_media_empresa.isSome)

/-- `soma_ponderada` of `calcular_nps_ponderado`: `Σ (note × fleet)` over the
clean rows. -/
def soma_ponderada (df : List Record) : ℚ :=
  ((df_clean df).map (fun r => r.nota_media_empresa.getD 0 * r.qtd_frota.getD 0)).sum

/-- `soma_frota` of `calcular_nps_ponderado`: `Σ fleet` over the clean rows. -/
def soma_frota (df : List Record) : ℚ :=
  ((df_clean df).map (fun r => r.qtd_frota.getD 0)).sum

theorem calcular_nps_ponderado_eq (df : List Record) :
    calcular_nps_ponderado df =
      if df.isEmpty then 0
      else if (df_clean df).isEmpty then 0
      else if soma_frota df = 0 then 0
      else pyRound2 (soma_ponderada df / soma_frota df) := rfl

/-- **C2.** `calcular_nps_ponderado` returns `round(Σ(note×fleet)/Σ(fleet), 2)`
over the rows where both fields are present; it returns `0.0` when the
filtered set is empty or the total fleet weight is zero; and a row missing
either field is excluded from both sums: deleting such a row from anywhere
in the frame does not change the result. -/
theorem calcular_nps_ponderado_correct (df : List Record) :
    (df_clean df = [] → calcular_nps_ponderado df = 0)
    ∧ (soma_frota df = 0 → calcular_nps_ponderado df = 0)
    ∧ (df_clean df ≠ [] → soma_frota df ≠ 0 →
        calcular_nps_ponderado df = pyRound2 (soma_ponderada df / soma_frota df))
    ∧ ∀ (pre post : List Record) (r : Record),
        r.nota_media_empresa = none ∨ r.qtd_frota = none →
        calcular_nps_ponderado (pre ++ r :: post) = calcular_nps_ponderado (pre ++ post) := by
  refine ⟨?_, ?_, ?_, ?_⟩
  · intro h
    rw [calcular_nps_ponderado_eq, h]
    simp
  · intro h
    rw [calcular_nps_ponderado_eq]
    split_ifs <;> simp_all
  · intro h1 h2
    rw [calcular_nps_ponderado_eq]
    have hdf : ¬df.isEmpty := by
      rcases df with _ | ⟨a, l⟩
      · simp [df_clean] at h1
      · simp
    have hclean : ¬(df_clean df).isEmpty := by simpa [List.isEmpty_iff] using h1
    simp [hdf, hclean, h2]
  · intro pre post r hr
    have hpr : (r.qtd_frota.isSome && r.nota_media_empresa.isSome) = false := by
      rcases hr with h | h <;> simp [h]
    have hfilter : df_clean (pre ++ r :: post) = df_clean (pre ++ post) := by
      unfold df_clean
      rw [List.filter_append, List.filter_append, List.filter_cons]
      simp [hpr]
    have hfr : soma_frota (pre ++ r :: post) = soma_frota (pre ++ post) := by
      unfold soma_frota; rw [hfilter]
    have hpo : soma_ponderada (pre ++ r :: post) = soma_ponderada (pre ++ post) := by
      unfold soma_ponderada; rw [hfilter]
    rw [calcular_nps_ponderado_eq, calcular_nps_ponderado_eq, hfilter, hfr, hpo]
    have hne : (pre ++ r :: post).isEmpty = false := by simp
    rw [hne]
    by_cases hpp : (pre ++ post).isEmpty
    · have hpp2 : df_clean (pre ++ post) = [] := by
        rcases pre with _ | _
        · rcases post with _ | _
          · simp [df_clean]
          · simp at hpp
        · simp at hpp
      rw [hpp2]
      simp [hpp]
    · simp [hpp]

/-- A record with a missing note: excluded from the weighted NPS. -/
def rSemNota : Record :=
  ⟨6, "Empresa F", some "DAF", some 40, none, some "Neutro", none, none, none⟩

/-- Witness for **C2** at concrete inputs: the five-record test fixture gives
`7.43`, and appending a row with a missing note does not change the result. -/
theorem calcular_nps_ponderado_correct_witness :
    calcular_nps_ponderado (dfExemplo ++ rSemNota :: []) = calcular_nps_ponderado (dfExemplo ++ [])
    ∧ calcular_nps_ponderado dfExemplo = 743 / 100 := by
  constructor
  · exact (calcular_nps_ponderado_correct (dfExemplo ++ rSemNota :: [])).2.2.2 dfExemplo [] rSemNota (Or.inl rfl)
  · set_option maxRecDepth 10000 in with_unfolding_all decide

/-- The `prioridade_flag` dict of `filtrar_detratores_prioritarios`
(utils.py 367). -/
def prioridade_flag : List (String × ℚ) := [("URGENTE", 1), ("ATENÇÃO", 2), ("OK", 3)]

/-- One cell of `df['flag_alerta'].map(prioridade_flag).fillna(3)`:
a null flag or a flag outside the dict maps to `NaN`, then `fillna` to 3. -/
def ordem_flag (flag : Option String) : ℚ :=
  (flag.bind (fun f => prioridade_flag.lookup f)).getD 3

/-- Secondary sort key: `qtd_frota` descending; a null fleet size sorts last
(`sort_values` default `na_position=last`). -/
def frota_desc (a b : Option ℚ) : Prop :=
  match a, b with
  | some x, some y => y ≤ x
  | some _, none => True
  | none, some _ => False
  | none, none => True

instance frota_desc_dec : DecidableRel frota_desc := fun a b =>
  match a, b with
  | some x, some y => inferInstanceAs (Decidable (y ≤ x))
  | some _, none => Decidable.isTrue trivial
  | none, some _ => Decidable.isFalse (fun h => h)
  | none, none => Decidable.isTrue trivial

instance frota_desc_total : IsTotal (Option ℚ) frota_desc where
  total a b := by
    rcases a with _ | x <;> rcases b with _ | y <;> simp [frota_desc]
    exact le_total y x

instance frota_desc_trans : IsTrans (Option ℚ) frota_desc where
  trans a b c hab hbc := by
    rcases a with _ | x <;> rcases b with _ | y <;> rcases c with _ | z <;>
      simp_all [frota_desc]
    linarith

/-- The two-key lexicographic order used by
`sort_values(by=[ordem_flag, qtd_frota], ascending=[True, False])`:
flag priority ascending, then fleet size descending. -/
def prioRel (a b : Record) : Prop :=
  ordem_flag a.flag_alerta < ordem_flag b.flag_alerta
  ∨ (ordem_flag a.flag_alerta = ordem_flag b.flag_alerta ∧ frota_desc a.qtd_frota b.qtd_frota)

instance prioRel_dec : DecidableRel prioRel := fun a b =>
  inferInstanceAs (Decidable (_ ∨ _))

instance prioRel_total : IsTotal Record prioRel where
  total a b := by
    rcases lt_trichotomy (ordem_flag a.flag_alerta) (ordem_flag b.flag_alerta) with h | h | h
    · exact Or.inl (Or.inl h)
    · rcases frota_desc_total.total a.qtd_frota b.qtd_frota with hf | hf
      · exact Or.inl (Or.inr ⟨h, hf⟩)
      · exact Or.inr (Or.inr ⟨h.symm, hf⟩)
    · exact Or.inr (Or.inl h)

instance prioRel_trans : IsTrans Record prioRel where
  trans a b c hab hbc := by
    rcases hab with h1 | ⟨h1, hf1⟩
    · rcases hbc with h2 | ⟨h2, _⟩
      · exact Or.inl (lt_trans h1 h2)
      · exact Or.inl (h2 ▸ h1)
    · rcases hbc with h2 | ⟨h2, hf2⟩
      · exact Or.inl (h1 ▸ h2)
      · exact Or.inr ⟨h1.trans h2, frota_desc_trans.trans _ _ _ hf1 hf2⟩

/-- `filtrar_detratores_prioritarios` (utils.py 347-379): keep the detractors
and sort them by flag priority ascending, fleet size descending.  The
two-key `sort_values` runs `np.lexsort`, a stable sort, modelled by the
stable `insertionSort`. -/
def filtrar_detratores_prioritarios (df : List Record) : List Record :=
  if df.isEmpty then []
  else
    let df_detratores := df.filter (fun r => r.classificacao_empresa == some "Detrator")
    if df_detratores.isEmpty then []
    else List.insertionSort prioRel df_detratores

theorem filtrar_detratores_cases (df : List Record) :
    filtrar_detratores_prioritarios df =
      List.insertionSort prioRel
        (df.filter (fun r => r.classificacao_empresa == some "Detrator")) := by
  unfold filtrar_detratores_prioritarios
  by_cases h : df.isEmpty
  · have : df = [] := List.isEmpty_iff.mp h
    subst this
    simp
  · simp only [h, Bool.false_eq_true, if_false]
    by_cases h2 : (df.filter (fun r => r.classificacao_empresa == some "Detrator")).isEmpty
    · have h3 : df.filter (fun r => r.classificacao_empresa == some "Detrator") = [] :=
        List.isEmpty_iff.mp h2
      simp [h2, h3]
    · simp [h2]

theorem filtrar_detratores_perm (df : List Record) :
    (filtrar_detratores_prioritarios df).Perm
      (df.filter (fun r => r.classificacao_empresa == some "Detrator")) := by
  rw [filtrar_detratores_cases]
  exact List.perm_insertionSort prioRel _

theorem filtrar_detratores_sorted (df : List Record) :
    (filtrar_detratores_prioritarios df).Sorted prioRel := by
  rw [filtrar_detratores_cases]
  exact List.sorted_insertionSort prioRel _

theorem filtrar_detratores_stable (df : List Record) (a b : Record)
    (hsub : [a, b].Sublist (df.filter (fun r => r.classificacao_empresa == some "Detrator")))
    (hflag : ordem_flag a.flag_alerta = ordem_flag b.flag_alerta)
    (hfrota : a.qtd_frota = b.qtd_frota) :
    [a, b].Sublist (filtrar_detratores_prioritarios df) := by
  rw [filtrar_detratores_cases]
  have hrel : prioRel a b := by
    refine Or.inr ⟨hflag, ?_⟩
    rw [hfrota]
    rcases b.qtd_frota with _ | x <;> simp [frota_desc]
  exact List.pair_sublist_insertionSort hrel hsub

/-- **C3.** `filtrar_detratores_prioritarios` returns exactly the records
classified `Detrator`, sorted by flag priority ascending (`URGENTE` = 1,
`ATENÇÃO` = 2, `OK` or absent = 3) with fleet size descending as secondary
key, and the sort is stable: two detractors with equal flag priority and
equal fleet size keep their original relative order. -/
theorem filtrar_detratores_prioritarios_correct (df : List Record) :
    (filtrar_detratores_prioritarios df).Perm
        (df.filter (fun r => r.classificacao_empresa == some "Detrator"))
    ∧ (filtrar_detratores_prioritarios df).Sorted prioRel
    ∧ ordem_flag (some "URGENTE") = 1 ∧ ordem_flag (some "ATENÇÃO") = 2
    ∧ ordem_flag (some "OK") = 3 ∧ ordem_flag none = 3
    ∧ ∀ a b : Record,
        [a, b].Sublist (df.filter (fun r => r.classificacao_empresa == some "Detrator")) →
        ordem_flag a.flag_alerta = ordem_flag b.flag_alerta →
        a.qtd_frota = b.qtd_frota →
        [a, b].Sublist (filtrar_detratores_prioritarios df) :=
  ⟨filtrar_detratores_perm df, filtrar_detratores_sorted df,
   by with_unfolding_all decide, by with_unfolding_all decide,
   by with_unfolding_all decide, by with_unfolding_all decide,
   fun a b hsub hflag hfrota => filtrar_detratores_stable df a b hsub hflag hfrota⟩

/-- Two detractors with identical keys, to witness stability. -/
def rDetA : Record := ⟨7, "Empresa G", none, some 80, some 3, some "Detrator", some "URGENTE", none, none⟩

/-- Second detractor with the same flag and fleet as `rDetA`. -/
def rDetB : Record := ⟨8, "Empresa H", none, some 80, some 2, some "Detrator", some "URGENTE", none, none⟩

/-- Witness for **C3**: on a concrete frame the equal-key pair keeps its
original order in the output. -/
theorem filtrar_detratores_prioritarios_correct_witness :
    [rDetA, rDetB].Sublist (filtrar_detratores_prioritarios [rDetA, rSemNota, rDetB]) :=
  (filtrar_detratores_prioritarios_correct [rDetA, rSemNota, rDetB]).2.2.2.2.2.2 rDetA rDetB
    (by with_unfolding_all decide) (by with_unfolding_all decide) (by with_unfolding_all decide)

/-- **C10.** In `filtrar_detratores_prioritarios`, any `flag_alerta` outside
`{URGENTE, ATENÇÃO, OK}` — not only an absent flag — gets the lowest
priority 3, same as `OK`/absent, so a detractor with an unrecognized flag
sorts after every `URGENTE` and `ATENÇÃO` detractor. -/
theorem ordem_flag_desconhecida (df : List Record) :
    (∀ s : String, s ∉ ["URGENTE", "ATENÇÃO", "OK"] → ordem_flag (some s) = 3)
    ∧ ordem_flag none = 3 ∧ ordem_flag (some "OK") = 3
    ∧ ∀ (i j : ℕ) (hi : i < (filtrar_detratores_prioritarios df).length)
        (hj : j < (filtrar_detratores_prioritarios df).length),
        ordem_flag (((filtrar_detratores_prioritarios df).get ⟨j, hj⟩).flag_alerta) <
          ordem_flag (((filtrar_detratores_prioritarios df).get ⟨i, hi⟩).flag_alerta) →
        j < i := by
  refine ⟨?_, by with_unfolding_all decide, by with_unfolding_all decide, ?_⟩
  · intro s hs
    simp only [List.mem_cons, List.not_mem_nil, or_false, not_or] at hs
    obtain ⟨h1, h2, h3⟩ := hs
    simp [ordem_flag, prioridade_flag, List.lookup,
      beq_false_of_ne h1, beq_false_of_ne h2, beq_false_of_ne h3]
  · intro i j hi hj hlt
    by_contra hij
    push_neg at hij
    rcases lt_or_eq_of_le hij with h | h
    · have hs := (filtrar_detratores_sorted df).rel_get_of_lt (a := ⟨i, hi⟩) (b := ⟨j, hj⟩) h
      rcases hs with h1 | ⟨h1, _⟩
      · exact absurd (lt_trans h1 hlt) (lt_irrefl _)
      · rw [h1] at hlt
        exact absurd hlt (lt_irrefl _)
    · subst h
      exact absurd hlt (lt_irrefl _)

/-- A detractor carrying a flag value outside the recognized set. -/
def rDetX : Record := ⟨9, "Empresa I", none, some 500, some 1, some "Detrator", some "NOVA_FLAG", none, none⟩

/-- Witness for **C10**: with an `URGENTE` detractor and a `NOVA_FLAG`
detractor, the unrecognized flag has priority 3 and ends up after the
urgent one. -/
theorem ordem_flag_desconhecida_witness :
    ordem_flag (some "NOVA_FLAG") = 3 ∧ (0 : ℕ) < 1 := by
  constructor
  · exact (ordem_flag_desconhecida []).1 "NOVA_FLAG" (by decide)
  · exact (ordem_flag_desconhecida [rDetX, rDetA]).2.2.2 1 0
      (by with_unfolding_all decide) (by with_unfolding_all decide)
      (by with_unfolding_all decide)

/-- `criar_distribuicao_notas` (utils.py 256-280): round each note to the
nearest integer (NumPy half-to-even) and tally over the fixed buckets
0..10.  `Series.round().astype(int)` raises a `ValueError` when any note
is NaN, so the result is an `Except`. -/
def criar_distribuicao_notas (df : List Record) : Except String (List (ℤ × ℕ)) :=
  if df.isEmpty then Except.ok ((List.range 11).map (fun n : ℕ => ((n : ℤ), 0)))
  else if df.any (fun r => r.nota_media_empresa.isNone) then
    Except.error "ValueError: cannot convert NA to integer"
  else
    Except.ok ((List.range 11).map (fun n : ℕ =>
      ((n : ℤ),
       (df.filter (fun r => roundHalfEven (r.nota_media_empresa.getD 0) == (n : ℤ))).length)))

theorem indicator_sum_range11 (m : ℤ) (h0 : 0 ≤ m) (h10 : m ≤ 10) :
    ((List.range 11).map (fun k : ℕ => if m == (k : ℤ) then 1 else 0)).sum = 1 := by
  interval_cases m <;> decide

theorem sum_bucket_counts (f : Record → ℤ) :
    ∀ l : List Record, (∀ r ∈ l, 0 ≤ f r ∧ f r ≤ 10) →
      ((List.range 11).map (fun k : ℕ => (l.filter (fun r => f r == (k : ℤ))).length)).sum
        = l.length := by
  intro l
  induction l with
  | nil => intro _; simp
  | cons a l ih =>
    intro h
    have ha := h a (List.mem_cons_self a l)
    have hl := ih (fun r hr => h r (List.mem_cons_of_mem a hr))
    have hstep : ∀ k : ℕ,
        ((a :: l).filter (fun r => f r == (k : ℤ))).length =
          (if f a == (k : ℤ) then 1 else 0) + (l.filter (fun r => f r == (k : ℤ))).length := by
      intro k
      rw [List.filter_cons]
      by_cases hfa : (f a == (k : ℤ)) = true
      · simp [hfa, Nat.add_comm]
      · simp [hfa]
    calc ((List.range 11).map (fun k : ℕ => ((a :: l).filter (fun r => f r == (k : ℤ))).length)).sum
        = ((List.range 11).map (fun k : ℕ =>
            (if f a == (k : ℤ) then 1 else 0) + (l.filter (fun r => f r == (k : ℤ))).length)).sum := by
          congr 1
          exact List.map_congr_left (fun (k : ℕ) _ => hstep k)
      _ = ((List.range 11).map (fun k : ℕ => if f a == (k : ℤ) then 1 else 0)).sum
            + ((List.range 11).map (fun k : ℕ => (l.filter (fun r => f r == (k : ℤ))).length)).sum := by
          rw [← List.sum_map_add]
      _ = 1 + l.length := by rw [indicator_sum_range11 (f a) ha.1 ha.2, hl]
      _ = (a :: l).length := by simp [Nat.add_comm]

/-- **C5 (amended).** On a frame where every record has a note,
`criar_distribuicao_notas` returns exactly 11 buckets labelled 0..10 in
order (zero counts included), each count tallying the records whose note
rounds (half-to-even) to that bucket; when moreover every note lies in
[0, 10] the counts sum to the number of records. -/
theorem criar_distribuicao_notas_correct (df : List Record)
    (hnotas : ∀ r ∈ df, r.nota_media_empresa.isSome) :
    ∃ l : List (ℤ × ℕ),
      criar_distribuicao_notas df = Except.ok l
      ∧ l.map Prod.fst = (List.range 11).map (fun n : ℕ => (n : ℤ))
      ∧ l.length = 11
      ∧ (∀ n : ℕ, n < 11 →
          l[n]? = some ((n : ℤ),
            (df.filter (fun r => roundHalfEven (r.nota_media_empresa.getD 0) == (n : ℤ))).length))
      ∧ ((∀ r ∈ df, ∀ q : ℚ, r.nota_media_empresa = some q → 0 ≤ q ∧ q ≤ 10) →
          (l.map Prod.snd).sum = df.length) := by
  by_cases hdf : df = []
  · subst hdf
    refine ⟨(List.range 11).map (fun n : ℕ => ((n : ℤ), 0)), rfl, ?_, ?_, ?_, ?_⟩
    · rw [List.map_map]
      rfl
    · rw [List.length_map, List.length_range]
    · intro n hn
      rw [List.getElem?_map, List.getElem?_range hn]
      rfl
    · intro _
      rw [List.map_map]
      show ((List.range 11).map (fun _ : ℕ => 0)).sum = 0
      apply List.sum_eq_zero
      intro x hx
      rcases List.mem_map.mp hx with ⟨n, _, rfl⟩
      rfl
  · have h1 : df.isEmpty = false := by simpa [List.isEmpty_iff] using hdf
    have hany : df.any (fun r => r.nota_media_empresa.isNone) = false := by
      rw [List.any_eq_false]
      intro r hr
      have hs := hnotas r hr
      intro hcon
      rw [Option.isNone_iff_eq_none] at hcon
      rw [hcon] at hs
      simp at hs
    have heq : criar_distribuicao_notas df = Except.ok ((List.range 11).map (fun n : ℕ =>
        ((n : ℤ),
         (df.filter (fun r => roundHalfEven (r.nota_media_empresa.getD 0) == (n : ℤ))).length))) := by
      unfold criar_distribuicao_notas
      rw [h1, hany]
      rfl
    refine ⟨_, heq, ?_, ?_, ?_, ?_⟩
    · rw [List.map_map]
      rfl
    · rw [List.length_map, List.length_range]
    · intro n hn
      rw [List.getElem?_map, List.getElem?_range hn]
      rfl
    · intro hrange
      rw [List.map_map]
      have hbounds : ∀ r ∈ df, 0 ≤ roundHalfEven (r.nota_media_empresa.getD 0)
          ∧ roundHalfEven (r.nota_media_empresa.getD 0) ≤ 10 := by
        intro r hr
        obtain ⟨q, hq⟩ := Option.isSome_iff_exists.mp (hnotas r hr)
        have hb := hrange r hr q hq
        rw [hq]
        simp only [Option.getD_some]
        constructor
        · exact le_roundHalfEven q 0 (by exact_mod_cast hb.1)
        · exact roundHalfEven_le q 10 (by exact_mod_cast hb.2)
      exact sum_bucket_counts _ df hbounds

/-- Counterexample to **C5** as stated: a one-record frame with a missing
note makes `criar_distribuicao_notas` raise (`astype(int)` on NaN) instead
of returning 11 buckets. -/
theorem criar_distribuicao_notas_counterexample :
    criar_distribuicao_notas [rSemNota] =
      Except.error "ValueError: cannot convert NA to integer" := by
  rfl

/-- Witness for **C5**: the five-record fixture satisfies the hypothesis
and so gets the 11 ordered buckets. -/
theorem criar_distribuicao_notas_correct_witness :
    ∃ l : List (ℤ × ℕ),
      criar_distribuicao_notas dfExemplo = Except.ok l
      ∧ l.map Prod.fst = (List.range 11).map (fun n : ℕ => (n : ℤ))
      ∧ l.length = 11
      ∧ (∀ n : ℕ, n < 11 →
          l[n]? = some ((n : ℤ),
            (dfExemplo.filter (fun r => roundHalfEven (r.nota_media_empresa.getD 0) == (n : ℤ))).length))
      ∧ ((∀ r ∈ dfExemplo, ∀ q : ℚ, r.nota_media_empresa = some q → 0 ≤ q ∧ q ≤ 10) →
          (l.map Prod.snd).sum = dfExemplo.length) :=
  criar_distribuicao_notas_correct dfExemplo (by with_unfolding_all decide)

/-- One output row of `calcular_nps_por_segmento`:
`segmento, nps, quantidade`. -/
structure SegRow where
  segmento : String
  nps : ℚ
  quantidade : ℕ
  deriving DecidableEq, Inhabited, Repr

/-- Helper for `uniqueFirst`: structural dedup keeping first occurrences,
with the already-seen values accumulated. -/
def uniqueFirstAux (seen : List String) : List String → List String
  | [] => []
  | a :: l => if seen.contains a then uniqueFirstAux seen l
              else a :: uniqueFirstAux (a :: seen) l

/-- `Series.dropna().unique()`: the distinct values in first-occurrence
order. -/
def uniqueFirst (l : List String) : List String := uniqueFirstAux [] l

/-- `sort_values(nps, ascending=False)` order on output rows. -/
def npsDesc (a b : SegRow) : Prop := b.nps ≤ a.nps

instance npsDesc_dec : DecidableRel npsDesc := fun a b =>
  inferInstanceAs (Decidable (b.nps ≤ a.nps))

instance npsDesc_total : IsTotal SegRow npsDesc where
  total a b := le_total b.nps a.nps

instance npsDesc_trans : IsTrans SegRow npsDesc where
  trans _ _ _ hab hbc := le_trans hbc hab

/-- `calcular_nps_por_segmento` (utils.py 283-313).  The pandas column
access is modelled by an accessor `getSeg` plus a flag `colPresent` for
`coluna_segmento in df.columns`.  When the frame is non-empty, the column
present, but every segment value null, the loop produces no rows and
`pd.DataFrame([]).sort_values(nps)` raises a `KeyError`, modelled as
`Except.error`. -/
def calcular_nps_por_segmento (df : List Record) (colPresent : Bool)
    (getSeg : Record → Option String) : Except String (List SegRow) :=
  if df.isEmpty || !colPresent then Except.ok []
  else
    let segs := uniqueFirst (df.filterMap getSeg)
    let resultados := segs.map (fun s =>
      SegRow.mk s (calcular_nps (df.filter (fun r => getSeg r == some s)))
        (df.filter (fun r => getSeg r == some s)).length)
    if resultados.isEmpty then Except.error "KeyError: nps"
    else Except.ok (List.insertionSort npsDesc resultados)

theorem uniqueFirst_eq_nil_iff (l : List String) : uniqueFirst l = [] ↔ l = [] := by
  cases l with
  | nil => simp [uniqueFirst, uniqueFirstAux]
  | cons a l => simp [uniqueFirst, uniqueFirstAux]

/-- **C6 (amended).** `calcular_nps_por_segmento` returns an empty sequence
when the frame is empty or the segment key is not a column; otherwise, when
at least one record has a non-null segment value, it returns the rows
`(segmentValue, calcular_nps(group), group size)` for the distinct non-null
segment values, sorted by nps descending; but when the frame is non-empty,
the column present, and every segment value is null, it raises a `KeyError`
instead of returning an empty sequence. -/
theorem calcular_nps_por_segmento_correct (df : List Record) (colPresent : Bool)
    (getSeg : Record → Option String) :
    ((df = [] ∨ colPresent = false) →
        calcular_nps_por_segmento df colPresent getSeg = Except.ok [])
    ∧ (df ≠ [] → colPresent = true → df.filterMap getSeg = [] →
        calcular_nps_por_segmento df colPresent getSeg = Except.error "KeyError: nps")
    ∧ (df ≠ [] → colPresent = true → df.filterMap getSeg ≠ [] →
        ∃ l : List SegRow,
          calcular_nps_por_segmento df colPresent getSeg = Except.ok l
          ∧ l.Sorted npsDesc
          ∧ l.Perm ((uniqueFirst (df.filterMap getSeg)).map (fun s =>
              SegRow.mk s (calcular_nps (df.filter (fun r => getSeg r == some s)))
                (df.filter (fun r => getSeg r == some s)).length))) := by
  refine ⟨?_, ?_, ?_⟩
  · rintro (rfl | hcol)
    · rfl
    · unfold calcular_nps_por_segmento
      rw [hcol]
      simp
  · intro hdf hcol hnull
    have h1 : df.isEmpty = false := by simpa [List.isEmpty_iff] using hdf
    unfold calcular_nps_por_segmento
    rw [h1, hcol, hnull]
    rfl
  · intro hdf hcol hsome
    have h1 : df.isEmpty = false := by simpa [List.isEmpty_iff] using hdf
    have hsegs : uniqueFirst (df.filterMap getSeg) ≠ [] := by
      rw [Ne, uniqueFirst_eq_nil_iff]
      exact hsome
    have hres : ((uniqueFirst (df.filterMap getSeg)).map (fun s =>
        SegRow.mk s (calcular_nps (df.filter (fun r => getSeg r == some s)))
          (df.filter (fun r => getSeg r == some s)).length)).isEmpty = false := by
      rcases hl : uniqueFirst (df.filterMap getSeg) with _ | ⟨a, l⟩
      · exact absurd hl hsegs
      · rfl
    refine ⟨_, ?_, List.sorted_insertionSort npsDesc _, List.perm_insertionSort npsDesc _⟩
    unfold calcular_nps_por_segmento
    rw [h1, hcol]
    simp only [Bool.not_true, Bool.or_false, Bool.false_eq_true, if_false]
    rw [hres]
    rfl

/-- A record whose `tipo_cliente` segment value is null. -/
def rSegNulo : Record := ⟨10, "Empresa J", none, some 5, some 7, some "Neutro", none, none, none⟩

/-- Counterexample to **C6** as stated: a non-empty frame with the segment
column present but all segment values null makes the function raise
(`sort_values` on a columnless empty frame) instead of returning an empty
sequence. -/
theorem calcular_nps_por_segmento_counterexample :
    calcular_nps_por_segmento [rSegNulo] true (fun r => r.tipo_cliente) =
      Except.error "KeyError: nps" := by
  rfl

/-- Witness for **C6**: grouping the five-record fixture by `tipo_cliente`
returns an nps-descending permutation of the three groups. -/
theorem calcular_nps_por_segmento_correct_witness :
    ∃ l : List SegRow,
      calcular_nps_por_segmento dfExemplo true (fun r => r.tipo_cliente) = Except.ok l
      ∧ l.Sorted npsDesc
      ∧ l.Perm ((uniqueFirst (dfExemplo.filterMap (fun r => r.tipo_cliente))).map (fun s =>
          SegRow.mk s
            (calcular_nps (dfExemplo.filter (fun r => (fun x => x.tipo_cliente) r == some s)))
            (dfExemplo.filter (fun r => (fun x => x.tipo_cliente) r == some s)).length)) :=
  (calcular_nps_por_segmento_correct dfExemplo true (fun r => r.tipo_cliente)).2.2
    (by with_unfolding_all decide) rfl (by with_unfolding_all decide)

/-- Gregorian leap year. -/
def isLeapYear (y : ℕ) : Bool := (y % 4 == 0 && y % 100 != 0) || y % 400 == 0

/-- Days in a month. -/
def daysInMonth (y m : ℕ) : ℕ :=
  if m = 2 then (if isLeapYear y then 29 else 28)
  else if m = 4 ∨ m = 6 ∨ m = 9 ∨ m = 11 then 30
  else 31

/-- A valid calendar date within the `pd.Timestamp` year range
(1677-09-21 .. 2262-04-11; whole years kept for simplicity). -/
def validDate (d : Date) : Prop :=
  1678 ≤ d.year ∧ d.year ≤ 2261 ∧ 1 ≤ d.month ∧ d.month ≤ 12
    ∧ 1 ≤ d.day ∧ d.day ≤ daysInMonth d.year d.month

instance validDate_dec (d : Date) : Decidable (validDate d) :=
  inferInstanceAs (Decidable (_ ∧ _))

/-- Two-digit zero-padded decimal. -/
def pad2 (n : ℕ) : List Char := [Char.ofNat (48 + n / 10 % 10), Char.ofNat (48 + n % 10)]

/-- Four-digit zero-padded decimal. -/
def pad4 (n : ℕ) : List Char :=
  [Char.ofNat (48 + n / 1000 % 10), Char.ofNat (48 + n / 100 % 10),
   Char.ofNat (48 + n / 10 % 10), Char.ofNat (48 + n % 10)]

/-- `Timestamp.strftime("%d/%m/%Y")`. -/
def strftime_dmy (d : Date) : String :=
  String.mk (pad2 d.day ++ '/' :: (pad2 d.month ++ '/' :: pad4 d.year))

/-- Numeric value of a digit character. -/
def digitVal (c : Char) : ℕ := c.toNat - 48

/-- ASCII digit test. -/
def isDigitChar (c : Char) : Bool := '0' ≤ c && c ≤ '9'

/-- Modelled from the library semantics: `pd.to_datetime` (dateutil, default
`dayfirst=False`) on a `NN/NN/NNNN` string tries the first field as the
month; if that does not form a valid date it swaps day and month.  Only
this shape is modelled — it is the shape `formatar_data` itself emits; on
any other string the model is `none` (the `except: return data` path). -/
def pd_to_datetime (s : String) : Option Date :=
  match s.toList with
  | [a1, a2, s1, b1, b2, s2, y1, y2, y3, y4] =>
    if s1 = '/' ∧ s2 = '/'
        ∧ isDigitChar a1 ∧ isDigitChar a2 ∧ isDigitChar b1 ∧ isDigitChar b2
        ∧ isDigitChar y1 ∧ isDigitChar y2 ∧ isDigitChar y3 ∧ isDigitChar y4 then
      let a := 10 * digitVal a1 + digitVal a2
      let b := 10 * digitVal b1 + digitVal b2
      let y := 1000 * digitVal y1 + 100 * digitVal y2 + 10 * digitVal y3 + digitVal y4
      if 1678 ≤ y ∧ y ≤ 2261 then
        if 1 ≤ a ∧ a ≤ 12 ∧ 1 ≤ b ∧ b ≤ daysInMonth y a then some (Date.mk y a b)
        else if 1 ≤ b ∧ b ≤ 12 ∧ 1 ≤ a ∧ a ≤ daysInMonth y b then some (Date.mk y b a)
        else none
      else none
    else none
  | _ => none

/-- The argument of `formatar_data`: `NaN`/`None`, a string, or a
timestamp. -/
inductive DataInput where
  | na : DataInput
  | str : String → DataInput
  | ts : Date → DataInput
  deriving DecidableEq

/-- `formatar_data` (utils.py 119-141): `-` for a missing value; a string is
parsed by `pd.to_datetime` and re-rendered on success, returned unchanged
on failure; a timestamp is rendered `DD/MM/YYYY`. -/
def formatar_data : DataInput → String
  | DataInput.na => "-"
  | DataInput.str s =>
    match pd_to_datetime s with
    | some d => strftime_dmy d
    | none => s
  | DataInput.ts d => strftime_dmy d

theorem digit_facts (k : ℕ) (hk : k < 10) :
    digitVal (Char.ofNat (48 + k)) = k
      ∧ isDigitChar (Char.ofNat (48 + k)) = true
      ∧ Char.ofNat (48 + k) ≠ '/' := by
  interval_cases k <;> exact ⟨rfl, rfl, by decide⟩

theorem daysInMonth_ge_28 (y m : ℕ) : 28 ≤ daysInMonth y m := by
  unfold daysInMonth
  split_ifs <;> omega

theorem daysInMonth_le_31 (y m : ℕ) : daysInMonth y m ≤ 31 := by
  unfold daysInMonth
  split_ifs <;> omega

theorem pd_to_datetime_mk (a1 a2 s1 b1 b2 s2 y1 y2 y3 y4 : Char) :
    pd_to_datetime (String.mk [a1, a2, s1, b1, b2, s2, y1, y2, y3, y4]) =
      (if s1 = '/' ∧ s2 = '/'
          ∧ isDigitChar a1 ∧ isDigitChar a2 ∧ isDigitChar b1 ∧ isDigitChar b2
          ∧ isDigitChar y1 ∧ isDigitChar y2 ∧ isDigitChar y3 ∧ isDigitChar y4 then
        let a := 10 * digitVal a1 + digitVal a2
        let b := 10 * digitVal b1 + digitVal b2
        let y := 1000 * digitVal y1 + 100 * digitVal y2 + 10 * digitVal y3 + digitVal y4
        if 1678 ≤ y ∧ y ≤ 2261 then
          if 1 ≤ a ∧ a ≤ 12 ∧ 1 ≤ b ∧ b ≤ daysInMonth y a then some (Date.mk y a b)
          else if 1 ≤ b ∧ b ≤ 12 ∧ 1 ≤ a ∧ a ≤ daysInMonth y b then some (Date.mk y b a)
          else none
        else none
      else none) := rfl

theorem pd_to_datetime_strftime (d : Date) (h : validDate d) :
    pd_to_datetime (strftime_dmy d) =
      some (if d.day ≤ 12 then Date.mk d.year d.day d.month else d) := by
  obtain ⟨hy1, hy2, hm1, hm2, hd1, hd2⟩ := h
  have hd31 : d.day ≤ 31 := le_trans hd2 (daysInMonth_le_31 _ _)
  have hform : strftime_dmy d = String.mk
      [Char.ofNat (48 + d.day / 10 % 10), Char.ofNat (48 + d.day % 10), '/',
       Char.ofNat (48 + d.month / 10 % 10), Char.ofNat (48 + d.month % 10), '/',
       Char.ofNat (48 + d.year / 1000 % 10), Char.ofNat (48 + d.year / 100 % 10),
       Char.ofNat (48 + d.year / 10 % 10), Char.ofNat (48 + d.year % 10)] := rfl
  rw [hform, pd_to_datetime_mk]
  have f1 := digit_facts (d.day / 10 % 10) (by omega)
  have f2 := digit_facts (d.day % 10) (by omega)
  have f3 := digit_facts (d.month / 10 % 10) (by omega)
  have f4 := digit_facts (d.month % 10) (by omega)
  have f5 := digit_facts (d.year / 1000 % 10) (by omega)
  have f6 := digit_facts (d.year / 100 % 10) (by omega)
  have f7 := digit_facts (d.year / 10 % 10) (by omega)
  have f8 := digit_facts (d.year % 10) (by omega)
  rw [if_pos ⟨rfl, rfl, f1.2.1, f2.2.1, f3.2.1, f4.2.1, f5.2.1, f6.2.1, f7.2.1, f8.2.1⟩]
  simp only [f1.1, f2.1, f3.1, f4.1, f5.1, f6.1, f7.1, f8.1]
  have ha : 10 * (d.day / 10 % 10) + d.day % 10 = d.day := by omega
  have hb : 10 * (d.month / 10 % 10) + d.month % 10 = d.month := by omega
  have hy : 1000 * (d.year / 1000 % 10) + 100 * (d.year / 100 % 10)
      + 10 * (d.year / 10 % 10) + d.year % 10 = d.year := by omega
  rw [ha, hb, hy, if_pos ⟨hy1, hy2⟩]
  by_cases hday : d.day ≤ 12
  · rw [if_pos ⟨hd1, hday, hm1, le_trans (le_trans hm2 (by norm_num)) (daysInMonth_ge_28 d.year d.day)⟩,
      if_pos hday]
  · rw [if_neg (by omega), if_pos ⟨hm1, hm2, hd1, hd2⟩, if_neg hday]

/-- **C8 (amended).** Formatting a valid date as `DD/MM/YYYY` and parsing
the string back the way `formatar_data` does (`pd.to_datetime`, month
first, day/month swapped as a fallback) recovers the original date exactly
when `day > 12` or `day = month`; for any other date (day ≤ 12, day ≠
month) the parse transposes day and month, so the round trip does not
recover the date. -/
theorem formatar_data_roundtrip (d : Date) (h : validDate d) :
    formatar_data (DataInput.str (formatar_data (DataInput.ts d))) =
      strftime_dmy (if d.day ≤ 12 then Date.mk d.year d.day d.month else d)
    ∧ pd_to_datetime (strftime_dmy d) =
        some (if d.day ≤ 12 then Date.mk d.year d.day d.month else d)
    ∧ ((12 < d.day ∨ d.day = d.month) ↔ pd_to_datetime (strftime_dmy d) = some d) := by
  have hparse := pd_to_datetime_strftime d h
  refine ⟨?_, hparse, ?_, ?_⟩
  · show (match pd_to_datetime (strftime_dmy d) with
      | some x => strftime_dmy x
      | none => strftime_dmy d) = _
    rw [hparse]
  · rintro (h12 | heq)
    · rw [hparse, if_neg (by omega)]
    · rw [hparse]
      rcases d with ⟨y, m, dd⟩
      simp only at heq
      subst heq
      split <;> rfl
  · intro hsome
    rw [hparse] at hsome
    by_cases hday : d.day ≤ 12
    · rw [if_pos hday] at hsome
      have := Option.some_injective _ hsome
      right
      have hmonth : (Date.mk d.year d.day d.month).month = d.month := by rw [this]
      simpa using hmonth
    · left; omega

/-- Counterexample to **C8** as stated: 5 December 2023 formats to
`05/12/2023`, which `pd.to_datetime` reads month-first as 12 May 2023, so
the round trip transposes day and month instead of recovering the date. -/
theorem formatar_data_roundtrip_counterexample :
    validDate (Date.mk 2023 12 5)
    ∧ formatar_data (DataInput.ts (Date.mk 2023 12 5)) = "05/12/2023"
    ∧ pd_to_datetime "05/12/2023" = some (Date.mk 2023 5 12)
    ∧ formatar_data (DataInput.str "05/12/2023") = "12/05/2023"
    ∧ Date.mk 2023 5 12 ≠ Date.mk 2023 12 5 := by
  refine ⟨by decide, rfl, ?_, ?_, by decide⟩
  · rfl
  · rfl

/-- Witness for **C8**: 25 December 2023 (day > 12) round-trips exactly. -/
theorem formatar_data_roundtrip_witness :
    pd_to_datetime (strftime_dmy (Date.mk 2023 12 25)) = some (Date.mk 2023 12 25) :=
  ((formatar_data_roundtrip (Date.mk 2023 12 25) (by decide)).2.2).mp (Or.inl (by decide))

/-- Python `str.strip()` whitespace test, exact on the Latin-1 range
(codepoints above U+00FF, e.g. U+2000, are not whitespace in this model;
no claim involves them). -/
def pyIsSpace (c : Char) : Bool :=
  c = ' ' || c = '\t' || c = '\n' || c.toNat = 11 || c.toNat = 12 || c = '\r'
  || (28 ≤ c.toNat && c.toNat ≤ 31) || c.toNat = 133 || c.toNat = 160

/-- Python `str.strip()`. -/
def pyStrip (l : List Char) : List Char :=
  ((l.dropWhile pyIsSpace).reverse.dropWhile pyIsSpace).reverse

/-- Python `str.isdigit` per character, exact on the Latin-1 range (it also
accepts the superscripts ¹ ² ³). -/
def pyIsDigit (c : Char) : Bool :=
  ('0' ≤ c && c ≤ '9') || c.toNat = 178 || c.toNat = 179 || c.toNat = 185

/-- The regex character class `[a-zA-ZÀ-ÿ]`: ASCII letters plus the whole
codepoint range U+00C0..U+00FF — which also contains the two non-letters
`×` (U+00D7) and `÷` (U+00F7). -/
def isClassChar (c : Char) : Bool :=
  ('a' ≤ c && c ≤ 'z') || ('A' ≤ c && c ≤ 'Z') || (192 ≤ c.toNat && c.toNat ≤ 255)

/-- Python regex `\w` (word character), exact on the Latin-1 range:
`[0-9A-Za-z_]`, the alphanumerics `ª µ º ¹ ² ³ ¼ ½ ¾`, and the letters
U+00C0..U+00FF minus `×` and `÷`.  Codepoints above U+00FF are modelled as
word characters (in the comments at hand those are letters); this choice
is shared by both sides of every theorem below. -/
def pyIsWord (c : Char) : Bool :=
  if c.toNat ≤ 255 then
    ('0' ≤ c && c ≤ '9') || ('a' ≤ c && c ≤ 'z') || ('A' ≤ c && c ≤ 'Z') || c = '_'
    || c.toNat = 170 || c.toNat = 181 || c.toNat = 186
    || c.toNat = 178 || c.toNat = 179 || c.toNat = 185
    || c.toNat = 188 || c.toNat = 189 || c.toNat = 190
    || (192 ≤ c.toNat && c.toNat ≤ 255 && c.toNat != 215 && c.toNat != 247)
  else true

/-- Is there a `\b` boundary at offset `k ≥ 1` into `l` (between `l[k-1]`
and `l[k]`, the end of the string counting as non-word)? -/
def boundaryEnd (l : List Char) (k : ℕ) : Bool :=
  pyIsWord (l.getD (k - 1) ' ') != (if k < l.length then pyIsWord (l.getD k ' ') else false)

/-- Greedy `{2,}` with backtracking against the trailing `\b`: the largest
`k` with `2 ≤ k ≤ m` and a boundary at offset `k`; `0` if none. -/
def findK (l : List Char) : ℕ → ℕ
  | 0 => 0
  | k + 1 => if 2 ≤ k + 1 && boundaryEnd l (k + 1) then k + 1 else findK l k

/-- Length of the match of `\b[a-zA-ZÀ-ÿ]{2,}\b` attempted at the head of
`l`, where `prevW` is the word-ness of the preceding character; `0` if the
attempt fails. -/
def tryLen (prevW : Bool) (l : List Char) : ℕ :=
  match l with
  | [] => 0
  | c :: _ =>
    if prevW == pyIsWord c then 0
    else
      let m := (l.takeWhile isClassChar).length
      if m < 2 then 0 else findK l m

/-- The `re.findall` scan, counting non-overlapping matches; `fuel` bounds
the recursion (each step consumes at least one character). -/
def contarPalavrasFuel : ℕ → Bool → List Char → ℕ
  | 0, _, _ => 0
  | _ + 1, _, [] => 0
  | fuel + 1, prevW, c :: rest =>
    let k := tryLen prevW (c :: rest)
    if 2 ≤ k then
      1 + contarPalavrasFuel fuel (pyIsWord ((c :: rest).getD (k - 1) ' ')) ((c :: rest).drop k)
    else
      contarPalavrasFuel fuel (pyIsWord c) rest

/-- `len(re.findall(r"\b[a-zA-ZÀ-ÿ]{2,}\b", comentario))`. -/
def contarPalavras (l : List Char) : ℕ := contarPalavrasFuel l.length false l

/-- `len(re.findall(r"[a-zA-ZÀ-ÿ]", comentario))`. -/
def contarLetras (l : List Char) : ℕ := (l.filter isClassChar).length

/-- The body of `eh_comentario_valido` after `str(comentario).strip()`. -/
def eh_comentario_valido_core (c : List Char) : Bool :=
  if c.isEmpty then false
  else if c.length ≤ 3 then false
  else if !(c.filter (fun ch => !(ch = ' ' || ch = '.' || ch = ','))).isEmpty
      && (c.filter (fun ch => !(ch = ' ' || ch = '.' || ch = ','))).all pyIsDigit then false
  else if contarPalavras c < 2 then false
  else if contarLetras c < 10 then false
  else true

/-- `eh_comentario_valido` (utils.py 382-425): `pd.isna` gives `False`, the
rest operates on the stripped text. -/
def eh_comentario_valido (comentario : Option String) : Bool :=
  match comentario with
  | none => false
  | some s => eh_comentario_valido_core (pyStrip s.toList)

example : eh_comentario_valido none = false := by decide
example : eh_comentario_valido (some "") = false := by decide
example : eh_comentario_valido (some "12.5") = false := by decide
example : eh_comentario_valido (some "ok") = false := by decide
example : eh_comentario_valido (some "o atendimento foi excelente") = true := by decide
example : eh_comentario_valido (some "word1word word2word") = false := by decide

/-- "Alphabetic" as the claim reads it: ASCII letters plus the Latin-1
letters with Portuguese diacritics — i.e. U+00C0..U+00FF without the two
non-letters `×` and `÷`. -/
def isAlphaPT (c : Char) : Bool :=
  ('a' ≤ c && c ≤ 'z') || ('A' ≤ c && c ≤ 'Z')
  || (192 ≤ c.toNat && c.toNat ≤ 255 && c.toNat != 215 && c.toNat != 247)

/-- The claim's token count: maximal runs of ≥ 2 alphabetic characters. -/
def alphaRunTokens (l : List Char) : ℕ :=
  ((l.splitOnP (fun c => !isAlphaPT c)).filter (fun t => 2 ≤ t.length)).length

/-- The claim **C4** as written: five independent gates over the stripped
text, with tokens = maximal runs of ≥ 2 alphabetic characters and the
letter count over alphabetic characters. -/
def claimValidComment (t : Option String) : Bool :=
  match t with
  | none => false
  | some s =>
    let c := pyStrip s.toList
    !c.isEmpty && !(c.length ≤ 3)
    && !(!(c.filter (fun ch => !(ch = ' ' || ch = '.' || ch = ','))).isEmpty
         && (c.filter (fun ch => !(ch = ' ' || ch = '.' || ch = ','))).all pyIsDigit)
    && 2 ≤ alphaRunTokens c
    && 10 ≤ (c.filter isAlphaPT).length

/-- Counterexample to **C4** as stated: `"word1word word2word"` passes all
five gates of the claim (4 alphabetic runs of length ≥ 2, 16 letters), yet
`eh_comentario_valido` rejects it — the regex `\b[a-zA-ZÀ-ÿ]{2,}\b` finds
no match because the digits adjacent to the letter runs suppress every
word boundary. -/
theorem eh_comentario_valido_counterexample :
    eh_comentario_valido (some "word1word word2word") = false
    ∧ claimValidComment (some "word1word word2word") = true := by decide

theorem pyStrip_length_le (l : List Char) : (pyStrip l).length ≤ l.length := by
  unfold pyStrip
  calc (((l.dropWhile pyIsSpace).reverse.dropWhile pyIsSpace).reverse).length
      = ((l.dropWhile pyIsSpace).reverse.dropWhile pyIsSpace).length := List.length_reverse _
    _ ≤ (l.dropWhile pyIsSpace).reverse.length := (List.dropWhile_sublist _).length_le
    _ = (l.dropWhile pyIsSpace).length := List.length_reverse _
    _ ≤ l.length := (List.dropWhile_sublist _).length_le

theorem isEmpty_false_iff (x : List Char) : x.isEmpty = false ↔ x ≠ [] := by
  cases x <;> simp

theorem eh_comentario_valido_core_iff (c : List Char) :
    eh_comentario_valido_core c = true ↔
      (c ≠ [] ∧ 3 < c.length
        ∧ ¬((c.filter (fun ch => !(ch = ' ' || ch = '.' || ch = ','))) ≠ []
            ∧ ∀ ch ∈ c.filter (fun ch => !(ch = ' ' || ch = '.' || ch = ',')), pyIsDigit ch)
        ∧ 2 ≤ contarPalavras c ∧ 10 ≤ contarLetras c) := by
  unfold eh_comentario_valido_core
  split_ifs with h1 h2 h3 h4 h5
  · rw [List.isEmpty_iff] at h1
    simp [h1]
  · simp only [false_iff]
    rintro ⟨_, hlen, _⟩
    omega
  · simp only [false_iff]
    rintro ⟨_, _, hdig, _⟩
    apply hdig
    rw [Bool.and_eq_true, Bool.not_eq_true', isEmpty_false_iff, List.all_eq_true] at h3
    exact ⟨h3.1, fun ch hch => h3.2 ch hch⟩
  · simp only [false_iff]
    rintro ⟨_, _, _, hp, _⟩
    omega
  · simp only [false_iff]
    rintro ⟨_, _, _, _, hl⟩
    omega
  · simp only [true_iff]
    rw [List.isEmpty_iff] at h1
    refine ⟨h1, by omega, ?_, by omega, by omega⟩
    intro hcon
    apply h3
    rw [Bool.and_eq_true, Bool.not_eq_true', isEmpty_false_iff, List.all_eq_true]
    exact ⟨hcon.1, fun ch hch => hcon.2 ch hch⟩

/-- **C4 (amended).** `eh_comentario_valido` is a pure predicate over the
stripped text equal to the conjunction of five gates: non-empty; length
> 3; not all-digits after removing spaces, periods and commas; at least 2
word-boundary-delimited runs of ≥ 2 characters of the class
`[a-zA-ZÀ-ÿ]` (so a run adjacent to a digit, underscore or other word
character outside the class does not count, and `×`/`÷` belong to the
class); and at least 10 characters of that class.  In particular it
rejects `None`, `""`, `"12.5"`, `"ok"` and every string of ≤ 3 characters,
and accepts a genuine multi-word sentence with ≥ 10 letters. -/
theorem eh_comentario_valido_correct :
    (∀ t : Option String, eh_comentario_valido t = true ↔
      ∃ s : String, t = some s ∧
        (pyStrip s.toList ≠ [] ∧ 3 < (pyStrip s.toList).length
          ∧ ¬(((pyStrip s.toList).filter (fun ch => !(ch = ' ' || ch = '.' || ch = ','))) ≠ []
              ∧ ∀ ch ∈ (pyStrip s.toList).filter (fun ch => !(ch = ' ' || ch = '.' || ch = ',')),
                  pyIsDigit ch)
          ∧ 2 ≤ contarPalavras (pyStrip s.toList) ∧ 10 ≤ contarLetras (pyStrip s.toList)))
    ∧ eh_comentario_valido none = false
    ∧ eh_comentario_valido (some "") = false
    ∧ eh_comentario_valido (some "12.5") = false
    ∧ eh_comentario_valido (some "ok") = false
    ∧ (∀ s : String, s.length ≤ 3 → eh_comentario_valido (some s) = false)
    ∧ eh_comentario_valido (some "o atendimento foi excelente") = true := by
  refine ⟨?_, by decide, by decide, by decide, by decide, ?_, by decide⟩
  · intro t
    cases t with
    | none => simp [eh_comentario_valido]
    | some s =>
      have hsome : eh_comentario_valido (some s) = eh_comentario_valido_core (pyStrip s.toList) :=
        rfl
      rw [hsome, eh_comentario_valido_core_iff]
      constructor
      · intro hc
        exact ⟨s, rfl, hc⟩
      · rintro ⟨s2, hs2, hc⟩
        cases hs2
        exact hc
  · intro s hs
    have hsome : eh_comentario_valido (some s) = eh_comentario_valido_core (pyStrip s.toList) :=
      rfl
    rw [hsome]
    have hlen : (pyStrip s.toList).length ≤ 3 := by
      have h1 := pyStrip_length_le s.toList
      have h2 : s.toList.length = s.length := rfl
      omega
    unfold eh_comentario_valido_core
    split_ifs <;> first | rfl | omega

/-- Witness for **C4**: the amended equivalence evaluated at a genuine
sentence. -/
theorem eh_comentario_valido_correct_witness :
    eh_comentario_valido (some "o atendimento foi excelente") = true :=
  (eh_comentario_valido_correct.1 (some "o atendimento foi excelente")).mpr
    ⟨"o atendimento foi excelente", rfl, by decide, by decide, by decide, by decide, by decide⟩

/-- Chronological order on dates (lexicographic year, month, day). -/
def dateLe (a b : Date) : Prop :=
  a.year < b.year ∨ (a.year = b.year ∧ (a.month < b.month
    ∨ (a.month = b.month ∧ a.day ≤ b.day)))

instance dateLe_dec : DecidableRel dateLe := fun a b =>
  inferInstanceAs (Decidable (_ ∨ _))

theorem dateLe_total (a b : Date) : dateLe a b ∨ dateLe b a := by
  unfold dateLe
  omega

theorem dateLe_trans (a b c : Date) (hab : dateLe a b) (hbc : dateLe b c) : dateLe a c := by
  unfold dateLe at hab hbc ⊢
  omega

/-- Descending order on optional timestamps: most recent first, missing
values last (the `sort_values` default `na_position=last`). -/
def optDateDesc (a b : Option Date) : Prop :=
  match a, b with
  | some x, some y => dateLe y x
  | some _, none => True
  | none, some _ => False
  | none, none => True

instance optDateDesc_dec : DecidableRel optDateDesc := fun a b =>
  match a, b with
  | some x, some y => inferInstanceAs (Decidable (dateLe y x))
  | some _, none => Decidable.isTrue trivial
  | none, some _ => Decidable.isFalse (fun h => h)
  | none, none => Decidable.isTrue trivial

theorem optDateDesc_total (a b : Option Date) : optDateDesc a b ∨ optDateDesc b a := by
  rcases a with _ | x <;> rcases b with _ | y <;> simp [optDateDesc]
  exact (dateLe_total x y).symm

theorem optDateDesc_trans (a b c : Option Date) (hab : optDateDesc a b)
    (hbc : optDateDesc b c) : optDateDesc a c := by
  rcases a with _ | x <;> rcases b with _ | y <;> rcases c with _ | z <;>
    simp_all [optDateDesc]
  exact dateLe_trans z y x hbc hab

/-- `sort_values(ultima_resposta, ascending=False)` order on rows. -/
def tsDesc (a b : Record) : Prop := optDateDesc a.ultima_resposta b.ultima_resposta

instance tsDesc_dec : DecidableRel tsDesc := fun a b =>
  inferInstanceAs (Decidable (optDateDesc a.ultima_resposta b.ultima_resposta))

instance tsDesc_total : IsTotal Record tsDesc where
  total a b := optDateDesc_total a.ultima_resposta b.ultima_resposta

instance tsDesc_trans : IsTrans Record tsDesc where
  trans a b c hab hbc := optDateDesc_trans _ _ _ hab hbc

/-- One entry of the `comentarios` dict built by
`processar_comentarios_por_classificacao`. -/
structure Comentario where
  empresa : String
  nota : Option ℚ
  data : String
  comentario : String
  deriving DecidableEq, Repr

/-- The dict entry built from one row (utils.py 464-470). -/
def mkComentario (r : Record) : Comentario :=
  Comentario.mk r.customer_name r.nota_media_empresa
    (formatar_data (match r.ultima_resposta with
      | some d => DataInput.ts d
      | none => DataInput.na))
    (r.comentarios_consolidados.getD "")

/-- The per-classification pipeline of
`processar_comentarios_por_classificacao` (utils.py 447-462): filter to the
classification, drop null comments, drop whitespace-only comments, keep
valid comments, sort by `ultima_resposta` descending, truncate to 20. -/
def selecionar_comentarios (df : List Record) (classif : String) : List Record :=
  (List.insertionSort tsDesc
    ((((df.filter (fun r => r.classificacao_empresa == some classif)).filter
        (fun r => r.comentarios_consolidados.isSome)).filter
        (fun r => !(pyStrip ((r.comentarios_consolidados.getD "").toList)).isEmpty)).filter
        (fun r => eh_comentario_valido r.comentarios_consolidados))).take 20

/-- `processar_comentarios_por_classificacao` (utils.py 428-472): the dict
with exactly the three classification keys. -/
def processar_comentarios_por_classificacao (df : List Record) :
    List (String × List Comentario) :=
  [("Promotor", (selecionar_comentarios df "Promotor").map mkComentario),
   ("Neutro", (selecionar_comentarios df "Neutro").map mkComentario),
   ("Detrator", (selecionar_comentarios df "Detrator").map mkComentario)]

/-- **C7.** `processar_comentarios_por_classificacao` returns a map with
exactly the keys `Promotor, Neutro, Detrator`; each key holds the entries
built from records of that classification whose comment is non-null,
non-blank after stripping, and passes `eh_comentario_valido`; each list is
sorted by response timestamp descending (missing timestamps last) and has
at most 20 entries; and a classification's list depends only on the
records of that classification. -/
theorem processar_comentarios_correct (df : List Record) :
    ((processar_comentarios_por_classificacao df).map Prod.fst
        = ["Promotor", "Neutro", "Detrator"])
    ∧ (∀ c, c ∈ ["Promotor", "Neutro", "Detrator"] →
        (processar_comentarios_por_classificacao df).lookup c
          = some ((selecionar_comentarios df c).map mkComentario))
    ∧ (∀ c, (selecionar_comentarios df c).length ≤ 20)
    ∧ (∀ c r, r ∈ selecionar_comentarios df c →
        r.classificacao_empresa = some c
        ∧ r.comentarios_consolidados.isSome
        ∧ pyStrip ((r.comentarios_consolidados.getD "").toList) ≠ []
        ∧ eh_comentario_valido r.comentarios_consolidados = true)
    ∧ (∀ c, (selecionar_comentarios df c).Sorted tsDesc)
    ∧ (∀ (df2 : List Record) (c : String),
        df.filter (fun r => r.classificacao_empresa == some c)
          = df2.filter (fun r => r.classificacao_empresa == some c) →
        selecionar_comentarios df c = selecionar_comentarios df2 c) := by
  refine ⟨rfl, ?_, ?_, ?_, ?_, ?_⟩
  · intro c hc
    simp only [List.mem_cons, List.not_mem_nil, or_false] at hc
    rcases hc with rfl | rfl | rfl
    · rfl
    · rfl
    · rfl
  · intro c
    unfold selecionar_comentarios
    exact List.length_take_le 20 _
  · intro c r hr
    unfold selecionar_comentarios at hr
    have hr2 := (List.take_sublist 20 _).mem hr
    rw [List.mem_insertionSort] at hr2
    rw [List.mem_filter] at hr2
    obtain ⟨hr3, hvalid⟩ := hr2
    rw [List.mem_filter] at hr3
    obtain ⟨hr4, hstrip⟩ := hr3
    rw [List.mem_filter] at hr4
    obtain ⟨hr5, hsome⟩ := hr4
    rw [List.mem_filter] at hr5
    obtain ⟨_, hclassif⟩ := hr5
    refine ⟨by simpa using hclassif, hsome, ?_, hvalid⟩
    rw [Bool.not_eq_true', isEmpty_false_iff] at hstrip
    exact hstrip
  · intro c
    unfold selecionar_comentarios
    exact (List.sorted_insertionSort tsDesc _).sublist (List.take_sublist 20 _)
  · intro df2 c h
    unfold selecionar_comentarios
    rw [h]

/-- Witness for **C7**: on the five-record fixture (no comments at all) the
`Promotor` entry of the dict is present and holds the mapped selection. -/
theorem processar_comentarios_correct_witness :
    (processar_comentarios_por_classificacao dfExemplo).lookup "Promotor"
      = some ((selecionar_comentarios dfExemplo "Promotor").map mkComentario) :=
  (processar_comentarios_correct dfExemplo).2.1 "Promotor" (by decide)

/-- One row of the pandas storage: the record plus the auxiliary columns
created by the two mutating metric functions (`ordem_flag` in
`filtrar_detratores_prioritarios`, `nota_arredondada` in
`criar_distribuicao_notas`). -/
structure AuxRec where
  registro : Record
  ordem_flag_col : Option ℚ
  nota_arredondada : Option ℤ
  deriving DecidableEq, Inhabited, Repr

/-- In-place column assignment: write `f` over the rows of the view `v`
(indices into the storage), one `set` per row. -/
def setMany (f : AuxRec → AuxRec) : List AuxRec → List ℕ → List AuxRec
  | h, [] => h
  | h, i :: rest => setMany f (h.set i (f (h.getD i default))) rest

/-- `prioRel` read through a storage row. -/
def prioRelAux (a b : AuxRec) : Prop := prioRel a.registro b.registro

instance prioRelAux_dec : DecidableRel prioRelAux := fun a b =>
  inferInstanceAs (Decidable (prioRel a.registro b.registro))

/-- `prioRel` read through the storage at two view indices. -/
def prioRelIdx (h : List AuxRec) (i j : ℕ) : Prop :=
  prioRel (h.getD i default).registro (h.getD j default).registro

instance prioRelIdx_dec (h : List AuxRec) : DecidableRel (prioRelIdx h) := fun i j =>
  inferInstanceAs (Decidable (prioRel _ _))

/-- `filtrar_detratores_prioritarios` as it acts on the storage: the frame
argument is a view `v` into the heap `h`.  `df[mask]` shares storage,
`.copy()` allocates fresh rows, the `ordem_flag` assignment writes those
fresh rows in place, `sort_values` permutes the view, and `drop(axis=1)`
allocates the column-free result rows. -/
def filtrar_detratores_eff (h : List AuxRec) (v : List ℕ) : List AuxRec × List ℕ :=
  if v.isEmpty then (h, [])
  else
    let v_det := v.filter (fun i =>
      (h.getD i default).registro.classificacao_empresa == some "Detrator")
    let h1 := h ++ v_det.map (fun i => h.getD i default)
    let v1 := (List.range v_det.length).map (· + h.length)
    if v_det.isEmpty then (h1, [])
    else
      let h2 := setMany
        (fun a => AuxRec.mk a.registro (some (ordem_flag a.registro.flag_alerta)) a.nota_arredondada)
        h1 v1
      let v2 := @List.insertionSort ℕ (prioRelIdx h2) (prioRelIdx_dec h2) v1
      let h3 := h2 ++ v2.map (fun i =>
        AuxRec.mk (h2.getD i default).registro none (h2.getD i default).nota_arredondada)
      let v3 := (List.range v2.length).map (· + h2.length)
      (h3, v3)

/-- `criar_distribuicao_notas` as it acts on the storage: `df.copy()`
allocates fresh rows, the `nota_arredondada` assignment writes them in
place (unless the rounding raises on a missing note first), and the
histogram is read back from the written column. -/
def criar_distribuicao_eff (h : List AuxRec) (v : List ℕ) :
    List AuxRec × Except String (List (ℤ × ℕ)) :=
  if v.isEmpty then (h, Except.ok ((List.range 11).map (fun n : ℕ => ((n : ℤ), 0))))
  else
    let h1 := h ++ v.map (fun i => h.getD i default)
    let v1 := (List.range v.length).map (· + h.length)
    if (v.map (fun i => h.getD i default)).any (fun a => a.registro.nota_media_empresa.isNone) then
      (h1, Except.error "ValueError: cannot convert NA to integer")
    else
      let h2 := setMany
        (fun a => AuxRec.mk a.registro a.ordem_flag_col
          (some (roundHalfEven (a.registro.nota_media_empresa.getD 0))))
        h1 v1
      (h2, Except.ok ((List.range 11).map (fun n : ℕ =>
        ((n : ℤ),
         ((v1.map (fun i => h2.getD i default)).filter
           (fun a => a.nota_arredondada == some (n : ℤ))).length))))

theorem readBlock (h bl : List AuxRec) :
    ((List.range bl.length).map (· + h.length)).map (fun i => (h ++ bl).getD i default) = bl := by
  apply List.ext_getElem
  · simp
  · intro i h1 h2
    simp only [List.getElem_map, List.getElem_range]
    rw [List.getD_append_right _ _ _ _ (by omega)]
    rw [Nat.add_sub_cancel]
    exact List.getD_eq_getElem bl default h2

theorem setMany_append_block (f : AuxRec → AuxRec) :
    ∀ (bl h : List AuxRec),
      setMany f (h ++ bl) ((List.range bl.length).map (· + h.length)) = h ++ bl.map f := by
  intro bl
  induction bl with
  | nil => intro h; simp [setMany]
  | cons b bl ih =>
    intro h
    rw [List.length_cons, List.range_succ_eq_map]
    simp only [List.map_cons, List.map_map]
    show setMany f
      ((h ++ b :: bl).set (0 + h.length)
        (f ((h ++ b :: bl).getD (0 + h.length) default))) _ = _
    have hget : (h ++ b :: bl).getD (0 + h.length) default = b := by
      rw [Nat.zero_add, List.getD_append_right _ _ _ _ (le_refl _), Nat.sub_self]
      rfl
    have hset : (h ++ b :: bl).set (0 + h.length) (f b) = (h ++ [f b]) ++ bl := by
      rw [Nat.zero_add, List.set_append, if_neg (by omega), Nat.sub_self]
      simp
    rw [hget, hset]
    have hfun : ((fun x : ℕ => x + h.length) ∘ Nat.succ) = (· + (h ++ [f b]).length) := by
      funext k
      simp only [Function.comp_apply, List.length_append, List.length_cons, List.length_nil]
      omega
    rw [hfun, ih (h ++ [f b])]
    simp

theorem reads_extend (h ext : List AuxRec) (v : List ℕ) (hv : ∀ i ∈ v, i < h.length) :
    v.map (fun i => (h ++ ext).getD i default) = v.map (fun i => h.getD i default) :=
  List.map_congr_left (fun i hi => List.getD_append _ _ _ _ (hv i hi))

theorem any_map_comp (f : AuxRec → Record) (p : Record → Bool) (l : List AuxRec) :
    (l.map f).any p = l.any (fun a => p (f a)) := by
  induction l with
  | nil => rfl
  | cons a l ih => simp [ih]

theorem registro_mk_flag (a : AuxRec) :
    (AuxRec.mk a.registro (some (ordem_flag a.registro.flag_alerta)) a.nota_arredondada).registro
      = a.registro := rfl

theorem map_registro_map (g : ℕ → AuxRec) (l : List ℕ) :
    (l.map g).map AuxRec.registro = l.map (fun i => (g i).registro) := by
  rw [List.map_map]
  rfl

theorem map_registro_mapAux (g : AuxRec → AuxRec) (l : List AuxRec)
    (hg : ∀ a, (g a).registro = a.registro) :
    (l.map g).map AuxRec.registro = l.map AuxRec.registro := by
  rw [List.map_map]
  exact List.map_congr_left (fun a _ => hg a)

theorem filtrar_eff_spec (h : List AuxRec) (v : List ℕ) :
    (∃ ext, (filtrar_detratores_eff h v).1 = h ++ ext)
    ∧ ((filtrar_detratores_eff h v).2.map
          (fun i => ((filtrar_detratores_eff h v).1.getD i default).registro))
        = filtrar_detratores_prioritarios
            ((v.map (fun i => h.getD i default)).map AuxRec.registro) := by
  by_cases hv : v = []
  · subst hv
    refine ⟨⟨[], by simp [filtrar_detratores_eff]⟩, ?_⟩
    simp [filtrar_detratores_eff, filtrar_detratores_prioritarios]
  · have hne : v.isEmpty = false := by simpa [List.isEmpty_iff] using hv
    have hkey : (v.map (fun i => h.getD i default)).filter
          (fun a => a.registro.classificacao_empresa == some "Detrator")
        = (v.filter (fun i =>
            (h.getD i default).registro.classificacao_empresa == some "Detrator")).map
            (fun i => h.getD i default) := by
      rw [List.filter_map]
      rfl
    have hkey2 : ((v.map (fun i => h.getD i default)).map AuxRec.registro).filter
          (fun r => r.classificacao_empresa == some "Detrator")
        = ((v.map (fun i => h.getD i default)).filter
            (fun a => a.registro.classificacao_empresa == some "Detrator")).map
            AuxRec.registro := by
      rw [List.filter_map]
      rfl
    by_cases hdet : v.filter (fun i =>
        (h.getD i default).registro.classificacao_empresa == some "Detrator") = []
    · have heq : filtrar_detratores_eff h v =
          (h ++ (v.filter (fun i =>
            (h.getD i default).registro.classificacao_empresa == some "Detrator")).map
            (fun i => h.getD i default), []) := by
        unfold filtrar_detratores_eff
        rw [hne, hdet]
        rfl
      rw [heq]
      refine ⟨⟨_, rfl⟩, ?_⟩
      rw [filtrar_detratores_cases, hkey2, hkey, hdet]
      rfl
    · have hdet2 : (v.filter (fun i =>
          (h.getD i default).registro.classificacao_empresa == some "Detrator")).isEmpty
            = false := by
        simpa [List.isEmpty_iff] using hdet
      set v_det := v.filter (fun i =>
        (h.getD i default).registro.classificacao_empresa == some "Detrator") with hvdet
      set bl := v_det.map (fun i => h.getD i default) with hbl
      set f1 : AuxRec → AuxRec := fun a =>
        AuxRec.mk a.registro (some (ordem_flag a.registro.flag_alerta)) a.nota_arredondada
        with hf1
      have hlen : v_det.length = bl.length := by rw [hbl, List.length_map]
      set v1 := (List.range v_det.length).map (· + h.length) with hv1
      have hh2 : setMany f1 (h ++ bl) v1 = h ++ bl.map f1 := by
        rw [hv1, hlen]
        exact setMany_append_block f1 bl h
      set h2 := h ++ bl.map f1 with hh2def
      set v2 := @List.insertionSort ℕ (prioRelIdx h2) (prioRelIdx_dec h2) v1 with hv2
      set bl2 := v2.map (fun i =>
        AuxRec.mk (h2.getD i default).registro none (h2.getD i default).nota_arredondada)
        with hbl2
      have heq : filtrar_detratores_eff h v =
          (h2 ++ bl2, (List.range v2.length).map (· + h2.length)) := by
        unfold filtrar_detratores_eff
        rw [hne, if_neg Bool.false_ne_true]
        simp only []
        rw [← hvdet, hdet2, if_neg Bool.false_ne_true, ← hbl, ← hf1, ← hv1, hh2,
          ← hv2, ← hbl2]
      rw [heq]
      constructor
      · exact ⟨bl.map f1 ++ bl2, by rw [hh2def, List.append_assoc]⟩
      · have hlen2 : v2.length = bl2.length := by rw [hbl2, List.length_map]
        have hread3 : ((List.range v2.length).map (· + h2.length)).map
            (fun i => (h2 ++ bl2).getD i default) = bl2 := by
          rw [hlen2]
          exact readBlock h2 bl2
        have hstep : ((List.range v2.length).map (· + h2.length)).map
            (fun i => ((h2 ++ bl2).getD i default).registro)
            = bl2.map AuxRec.registro := by
          rw [← map_registro_map (fun i => (h2 ++ bl2).getD i default)
            ((List.range v2.length).map (· + h2.length)), hread3]
        rw [hstep]
        have hread1 : v1.map (fun i => h2.getD i default) = bl.map f1 := by
          rw [hv1, hh2def]
          have hl2 : bl.length = (bl.map f1).length := (List.length_map _ _).symm
          rw [hlen, hl2]
          exact readBlock h (bl.map f1)
        have hsortmap : bl2.map AuxRec.registro
            = List.insertionSort prioRel (v1.map (fun i => (h2.getD i default).registro)) := by
          rw [hbl2, map_registro_map]
          have hpt : v2.map (fun i =>
              (AuxRec.mk (h2.getD i default).registro none
                (h2.getD i default).nota_arredondada).registro)
              = v2.map (fun i => (h2.getD i default).registro) := rfl
          rw [hpt, hv2]
          exact List.map_insertionSort (prioRelIdx h2) prioRel
            (fun i => (h2.getD i default).registro) v1 (fun a _ b _ => Iff.rfl)
        rw [hsortmap]
        have hv1reg : v1.map (fun i => (h2.getD i default).registro)
            = bl.map AuxRec.registro := by
          rw [← map_registro_map (fun i => h2.getD i default) v1, hread1,
            map_registro_mapAux f1 bl (fun a => rfl)]
        rw [hv1reg, filtrar_detratores_cases, hkey2, hkey]

theorem criar_eff_spec (h : List AuxRec) (v : List ℕ) :
    (∃ ext, (criar_distribuicao_eff h v).1 = h ++ ext)
    ∧ (criar_distribuicao_eff h v).2
        = criar_distribuicao_notas ((v.map (fun i => h.getD i default)).map AuxRec.registro) := by
  by_cases hv : v = []
  · subst hv
    refine ⟨⟨[], by simp [criar_distribuicao_eff]⟩, ?_⟩
    simp [criar_distribuicao_eff, criar_distribuicao_notas]
  · have hne : v.isEmpty = false := by simpa [List.isEmpty_iff] using hv
    have hne2 : ((v.map (fun i => h.getD i default)).map AuxRec.registro).isEmpty = false := by
      rcases v with _ | ⟨i, v⟩
      · exact absurd rfl hv
      · rfl
    have hanyeq : ((v.map (fun i => h.getD i default)).map AuxRec.registro).any
          (fun r => r.nota_media_empresa.isNone)
        = (v.map (fun i => h.getD i default)).any
            (fun a => a.registro.nota_media_empresa.isNone) :=
      any_map_comp AuxRec.registro (fun r => r.nota_media_empresa.isNone) _
    by_cases hA : (v.map (fun i => h.getD i default)).any
        (fun a => a.registro.nota_media_empresa.isNone) = true
    · have heq : criar_distribuicao_eff h v =
          (h ++ v.map (fun i => h.getD i default),
           Except.error "ValueError: cannot convert NA to integer") := by
        unfold criar_distribuicao_eff
        rw [hne, if_neg Bool.false_ne_true]
        simp only []
        rw [hA, if_pos rfl]
      rw [heq]
      refine ⟨⟨_, rfl⟩, ?_⟩
      unfold criar_distribuicao_notas
      rw [hne2, if_neg Bool.false_ne_true, hanyeq, hA, if_pos rfl]
    · have hA2 : (v.map (fun i => h.getD i default)).any
          (fun a => a.registro.nota_media_empresa.isNone) = false := by
        simpa using hA
      set bl := v.map (fun i => h.getD i default) with hbl
      set f2 : AuxRec → AuxRec := fun a =>
        AuxRec.mk a.registro a.ordem_flag_col
          (some (roundHalfEven (a.registro.nota_media_empresa.getD 0))) with hf2
      have hlen : v.length = bl.length := by rw [hbl, List.length_map]
      set v1 := (List.range v.length).map (· + h.length) with hv1
      have hh2 : setMany f2 (h ++ bl) v1 = h ++ bl.map f2 := by
        rw [hv1, hlen]
        exact setMany_append_block f2 bl h
      set h2 := h ++ bl.map f2 with hh2def
      have heq : criar_distribuicao_eff h v =
          (h2, Except.ok ((List.range 11).map (fun n : ℕ =>
            ((n : ℤ),
             ((v1.map (fun i => h2.getD i default)).filter
               (fun a => a.nota_arredondada == some (n : ℤ))).length)))) := by
        unfold criar_distribuicao_eff
        rw [hne, if_neg Bool.false_ne_true]
        simp only []
        rw [← hbl, hA2, if_neg Bool.false_ne_true, ← hf2, ← hv1, hh2]
      rw [heq]
      refine ⟨⟨_, rfl⟩, ?_⟩
      have hread1 : v1.map (fun i => h2.getD i default) = bl.map f2 := by
        rw [hv1, hh2def]
        have hl2 : bl.length = (bl.map f2).length := (List.length_map _ _).symm
        rw [hlen, hl2]
        exact readBlock h (bl.map f2)
      unfold criar_distribuicao_notas
      rw [hne2, if_neg Bool.false_ne_true, hanyeq, hA2, if_neg Bool.false_ne_true]
      show Except.ok _ = Except.ok _
      apply congrArg Except.ok
      apply List.map_congr_left
      intro n _
      congr 1
      rw [hread1]
      have e1 : (bl.map f2).filter (fun a => a.nota_arredondada == some (n : ℤ))
          = ((bl.filter (fun a =>
              roundHalfEven (a.registro.nota_media_empresa.getD 0) == (n : ℤ))).map f2) := by
        rw [List.filter_map]
        rfl
      have e2 : (bl.map AuxRec.registro).filter
            (fun r => roundHalfEven (r.nota_media_empresa.getD 0) == (n : ℤ))
          = ((bl.filter (fun a =>
              roundHalfEven (a.registro.nota_media_empresa.getD 0) == (n : ℤ))).map
              AuxRec.registro) := by
        rw [List.filter_map]
        rfl
      rw [e1, e2, List.length_map, List.length_map]

/-- **C9.** The metric functions do not mutate their input frame: run on a
storage heap `h` through a view `v` (all the rows of the frame), both
`filtrar_detratores_prioritarios` and `criar_distribuicao_notas` leave
every original storage row unchanged (the copies and the auxiliary-column
writes touch only freshly allocated rows), agree with their pure
list-of-records semantics, and therefore a second call on the same view
over the post-call storage yields exactly the same output. -/
theorem metric_functions_sem_mutacao (h : List AuxRec) (v : List ℕ)
    (hv : ∀ i ∈ v, i < h.length) :
    ((filtrar_detratores_eff h v).1.take h.length = h)
    ∧ ((criar_distribuicao_eff h v).1.take h.length = h)
    ∧ ((filtrar_detratores_eff (filtrar_detratores_eff h v).1 v).2.map
          (fun i => ((filtrar_detratores_eff (filtrar_detratores_eff h v).1 v).1.getD
            i default).registro)
        = (filtrar_detratores_eff h v).2.map
            (fun i => ((filtrar_detratores_eff h v).1.getD i default).registro))
    ∧ ((criar_distribuicao_eff (criar_distribuicao_eff h v).1 v).2
        = (criar_distribuicao_eff h v).2)
    ∧ ((criar_distribuicao_eff h v).2
        = criar_distribuicao_notas ((v.map (fun i => h.getD i default)).map AuxRec.registro))
    ∧ ((filtrar_detratores_eff h v).2.map
          (fun i => ((filtrar_detratores_eff h v).1.getD i default).registro)
        = filtrar_detratores_prioritarios
            ((v.map (fun i => h.getD i default)).map AuxRec.registro)) := by
  obtain ⟨ext1, hext1⟩ := (filtrar_eff_spec h v).1
  obtain ⟨ext2, hext2⟩ := (criar_eff_spec h v).1
  have hreads1 : v.map (fun i => (filtrar_detratores_eff h v).1.getD i default)
      = v.map (fun i => h.getD i default) := by
    rw [hext1]
    exact reads_extend h ext1 v hv
  have hreads2 : v.map (fun i => (criar_distribuicao_eff h v).1.getD i default)
      = v.map (fun i => h.getD i default) := by
    rw [hext2]
    exact reads_extend h ext2 v hv
  refine ⟨?_, ?_, ?_, ?_, (criar_eff_spec h v).2, (filtrar_eff_spec h v).2⟩
  · rw [hext1, List.take_left]
  · rw [hext2, List.take_left]
  · rw [(filtrar_eff_spec (filtrar_detratores_eff h v).1 v).2, (filtrar_eff_spec h v).2,
      hreads1]
  · rw [(criar_eff_spec (criar_distribuicao_eff h v).1 v).2, (criar_eff_spec h v).2,
      hreads2]

/-- The five-record fixture loaded into the storage model. -/
def heapExemplo : List AuxRec := dfExemplo.map (fun r => AuxRec.mk r none none)

/-- Witness for **C9**: on the fixture heap, both functions leave the five
original rows intact. -/
theorem metric_functions_sem_mutacao_witness :
    (filtrar_detratores_eff heapExemplo [0, 1, 2, 3, 4]).1.take heapExemplo.length = heapExemplo
    ∧ (criar_distribuicao_eff heapExemplo [0, 1, 2, 3, 4]).1.take heapExemplo.length
        = heapExemplo :=
  ⟨(metric_functions_sem_mutacao heapExemplo [0, 1, 2, 3, 4] (by decide)).1,
   (metric_functions_sem_mutacao heapExemplo [0, 1, 2, 3, 4] (by decide)).2.1⟩
